import Mathlib

/-!
Shallow embedding of the identifier model and reporting/sampling pipeline of
the tracing-honeycomb repository (src/tracing-honeycomb/src/honeycomb.rs and
src/honeycomb-tracing/src/telemetry.rs), together with proofs settling the
frozen claims about them.

Strings are modelled by Lean `String`/`List Char`; `u64`/`u128` values by
`Nat` with explicit bounds where overflow or width matters.
-/

/-! ## Model of the uuid crate's text form (dependency of honeycomb.rs)

`honeycomb.rs` delegates to `uuid::Uuid::parse_str` and
`Uuid::to_hyphenated().encode_lower`.  A `Uuid` value is modelled as its
`as_u128` numeric value (a `Nat < 2^128`; the crate's byte buffer read
big-endian).  The parser below mirrors the uuid-0.8 `parse_str` routine:
length pre-check (36 hyphenated / 32 simple / 45 with a urn header), a
char-by-char loop counting hex digits, hyphens admitted only at the
accumulated group lengths 8, 12, 16, 20, and a final check that exactly 32
hex digits were consumed. -/

/-- Value of one hex digit character, any case; `none` for non-hex chars
(mirrors the digit match arms of the uuid parser loop). -/
def hexVal (c : Char) : Option Nat :=
  if '0' ≤ c ∧ c ≤ '9' then some (c.toNat - 48)
  else if 'a' ≤ c ∧ c ≤ 'f' then some (c.toNat - 87)
  else if 'A' ≤ c ∧ c ≤ 'F' then some (c.toNat - 55)
  else none

/-- Lowercase hex digit character for a value `< 16` (mirrors
`encode_lower`). -/
def hexChar (n : Nat) : Char :=
  if n < 10 then Char.ofNat (48 + n) else Char.ofNat (87 + n)

/-- Big-endian fixed-width hex rendering: `k` hex chars of `n`. -/
def toHexAux : Nat → Nat → List Char
  | _, 0 => []
  | n, k + 1 => toHexAux (n / 16) k ++ [hexChar (n % 16)]

/-- Accumulated group lengths of the uuid hyphenated form
(`ACC_GROUP_LENS = [8, 12, 16, 20, 32]` in the uuid crate). -/
def accGroupLen : Nat → Nat
  | 0 => 8
  | 1 => 12
  | 2 => 16
  | 3 => 20
  | 4 => 32
  | _ => 33

/-- The uuid-0.8 parser loop: walks the chars keeping the count of hex
digits consumed, the current group, and the accumulated numeric value;
returns the final digit count and value, or `none` on a malformed char.
A hyphen is accepted only at an even digit count equal to the accumulated
group length of the current group. -/
def uuidParseLoop : List Char → Nat → Nat → Nat → Option (Nat × Nat)
  | [], digit, _, acc => some (digit, acc)
  | c :: cs, digit, group, acc =>
    if 32 ≤ digit ∧ group ≠ 4 then none
    else if c = '-' then
      if digit % 2 = 0 ∧ accGroupLen group = digit then
        uuidParseLoop cs digit (group + 1) acc
      else none
    else
      match hexVal c with
      | some d => uuidParseLoop cs (digit + 1) group (acc * 16 + d)
      | none => none

/-- Final check of the uuid parser: exactly 32 hex digits consumed. -/
def uuidFinish : Option (Nat × Nat) → Option Nat
  | some (digit, acc) => if digit = 32 then some acc else none
  | none => none

/-- The 9-char urn header accepted by `Uuid::parse_str`. -/
def urnHeader : List Char := ['u', 'r', 'n', ':', 'u', 'u', 'i', 'd', ':']

/-- `Uuid::parse_str` on a char list: length pre-check, then the loop. -/
def uuidParseChars (cs : List Char) : Option Nat :=
  if cs.length = 45 ∧ cs.take 9 = urnHeader then
    uuidFinish (uuidParseLoop (cs.drop 9) 0 0 0)
  else if cs.length = 36 ∨ cs.length = 32 then
    uuidFinish (uuidParseLoop cs 0 0 0)
  else none

/-- `Uuid::parse_str` on a string. -/
def uuidParse (s : String) : Option Nat :=
  uuidParseChars s.data

/-- Chars of the canonical lowercase hyphenated rendering
(`to_hyphenated().encode_lower`): 32 hex digits of the value in groups
8-4-4-4-12 separated by hyphens. -/
def uuidRenderChars (u : Nat) : List Char :=
  let ds := toHexAux u 32
  ds.take 8 ++ ('-' :: ((ds.drop 8).take 4 ++ ('-' :: ((ds.drop 12).take 4 ++
    ('-' :: ((ds.drop 16).take 4 ++ ('-' :: ds.drop 20)))))))

/-- Canonical lowercase hyphenated rendering as a string. -/
def uuidRender (u : Nat) : String :=
  String.mk (uuidRenderChars u)

/-! ## TraceId (current variant, honeycomb.rs)

The Rust source wraps the inner enum `TraceIdInner { Uuid(Uuid),
String(String) }` in a newtype `TraceId(TraceIdInner)`; the embedding
collapses the newtype into a single inductive. -/

/-- `TraceId` of honeycomb.rs: a tagged union of a 128-bit uuid value and
an opaque string. -/
inductive TraceId where
  | uuid (u : Nat)
  | str (s : String)
deriving DecidableEq

/-- Well-formedness of the embedding: the uuid variant carries a 128-bit
value. -/
def TraceId.WF : TraceId → Prop
  | .uuid u => u < 2 ^ 128
  | .str _ => True

/-- `Display for TraceId`: uuid variant rendered lowercase hyphenated,
string variant rendered verbatim. -/
def TraceId.toText : TraceId → String
  | .uuid u => uuidRender u
  | .str s => s

/-- `FromStr for TraceId` (error type `Infallible`, modelled by `Empty`):
try `Uuid::parse_str`; on failure fall back to carrying the whole input as
an opaque string. -/
def TraceId.from_str (s : String) : Except Empty TraceId :=
  match uuidParse s with
  | some u => .ok (.uuid u)
  | none => .ok (.str s)

/-- `From<u128> for TraceId` (`Uuid::from_u128`). -/
def TraceId.fromU128 (u : Nat) : TraceId :=
  .uuid (u % 2 ^ 128)

/-- `From<String> for TraceId` (also covers the `&str` and `Cow`
impls, which call `to_string`). -/
def TraceId.fromString (s : String) : TraceId :=
  .str s

/-! ## Model of `u64::from_str_radix(s, 10)` (std dependency of SpanId)

Mirrors the std parser: empty input is an `Empty` error; an optional
leading `+` sign (a lone sign is `InvalidDigit`); then a left-to-right
fold over base-10 digits with an overflow check at every step
(`PosOverflow`); any non-digit char is `InvalidDigit`.  For the unsigned
type a leading `-` falls through to the digit loop (or the lone-sign arm)
and yields `InvalidDigit` either way, as in std. -/

/-- Error kinds of `std::num::ParseIntError` reachable here. -/
inductive IntErrorKind where
  | Empty
  | InvalidDigit
  | PosOverflow
deriving DecidableEq

/-- `u64::MAX`. -/
def u64Max : Nat := 2 ^ 64 - 1

/-- Value of a base-10 digit char (`char::to_digit(10)`). -/
def decVal (c : Char) : Option Nat :=
  if '0' ≤ c ∧ c ≤ '9' then some (c.toNat - 48) else none

/-- Digit character for a value `< 10` (decimal `Display`). -/
def decChar (n : Nat) : Char :=
  Char.ofNat (48 + n)

/-- The std digit fold with per-step overflow check. -/
def parseU64Loop : List Char → Nat → Except IntErrorKind Nat
  | [], acc => .ok acc
  | c :: cs, acc =>
    match decVal c with
    | none => .error .InvalidDigit
    | some d =>
      if u64Max < acc * 10 + d then .error .PosOverflow
      else parseU64Loop cs (acc * 10 + d)

/-- `u64::from_str_radix(s, 10)` on a char list. -/
def u64FromStrRadix10 (cs : List Char) : Except IntErrorKind Nat :=
  match cs with
  | [] => .error .Empty
  | c :: rest =>
    if c = '+' then
      match rest with
      | [] => .error .InvalidDigit
      | _ :: _ => parseU64Loop rest 0
    else parseU64Loop (c :: rest) 0

/-- Canonical decimal rendering of an unsigned integer (`Display` for
`u64`): `"0"` for zero, otherwise the base-10 digits most significant
first. -/
def natToDec (n : Nat) : List Char :=
  if n = 0 then ['0'] else ((Nat.digits 10 n).reverse).map decChar

/-- Rust's `str::split('-')` as far as SpanId parsing consumes it: the
list of `'-'`-separated fields, empty fields preserved (splitting the
empty string yields one empty field). -/
def splitOnDash : List Char → List (List Char)
  | [] => [[]]
  | c :: cs =>
    if c = '-' then [] :: splitOnDash cs
    else
      match splitOnDash cs with
      | [] => [[c]]
      | g :: gs => (c :: g) :: gs

/-! ## SpanId (honeycomb.rs; the legacy telemetry.rs SpanId is
line-identical) -/

/-- `SpanId`: the span's `tracing::span::Id` (a nonzero u64, modelled as
its `into_u64` value) paired with an instance id. -/
structure SpanId where
  tracing_id : Nat
  instance_id : Nat
deriving DecidableEq

/-- `ParseSpanIdError` of honeycomb.rs, with the reachable
`ParseIntError` kinds inlined. -/
inductive ParseSpanIdError where
  | ParseIntError (e : IntErrorKind)
  | FormatError
deriving DecidableEq

/-- Outcome of a Rust call that can return, error, or panic. -/
inductive RResult (ε : Type) (α : Type) where
  | ok (a : α)
  | err (e : ε)
  | panicked
deriving DecidableEq

/-- `tracing::span::Id::from_u64`: panics on 0 (`NonZeroU64::new(u)
.expect(..)`; the repository's own test comment at honeycomb.rs:262
records that it throws on 0). `none` models the panic. -/
def tracingIdFromU64 (u : Nat) : Option Nat :=
  if u = 0 then none else some u

/-- `FromStr for SpanId`: take the first two `'-'`-separated fields (the
first `next()` on a split iterator never yields `None`, so the first
field always exists); parse each as a base-10 u64; build the `SpanId`,
whose `tracing::Id` construction panics when the first field parsed
to 0. -/
def SpanId.from_str (s : String) : RResult ParseSpanIdError SpanId :=
  match splitOnDash s.data with
  | [] => .err .FormatError
  | [s1] =>
    match u64FromStrRadix10 s1 with
    | .error e => .err (.ParseIntError e)
    | .ok _ => .err .FormatError
  | s1 :: s2 :: _ =>
    match u64FromStrRadix10 s1 with
    | .error e => .err (.ParseIntError e)
    | .ok u1 =>
      match u64FromStrRadix10 s2 with
      | .error e => .err (.ParseIntError e)
      | .ok u2 =>
        match tracingIdFromU64 u1 with
        | none => .panicked
        | some tid => .ok ⟨tid, u2⟩

/-- `Display for SpanId`: `"{local}-{instance}"` in decimal. -/
def SpanId.toText (sp : SpanId) : String :=
  String.mk (natToDec sp.tracing_id ++ ('-' :: natToDec sp.instance_id))

/-! ## Telemetry sink (honeycomb.rs `HoneycombTelemetry`)

The libhoney client is a collaborator; its observable surface is modelled
as explicit state: the list of records its buffer accepted, the lines
written to stderr, and instrumentation counters recording how many times
the client mutex was acquired and how many times a span/event was
flattened.  The outcome of the client's `send` is an oracle parameter
(`none` = success, `some err` = the send failed with debug text `err`),
since the buffering client is out of scope. -/

/-- `libhoney::Config` (opaque to this core). -/
structure Config where

/-- The sink: a mutex-wrapped libhoney client (state carried separately)
plus the optional sampling denominator. -/
structure HoneycombTelemetry where
  sample_rate : Option Nat

/-- `HoneycombTelemetry::new`: initializes the client from the config and
stores the sample rate unchecked; never fails. -/
def HoneycombTelemetry.new (_cfg : Config) (sample_rate : Option Nat) : HoneycombTelemetry :=
  ⟨sample_rate⟩

/-- `should_report`: `trace_id mod sample_rate == 0` when a denominator is
present, else true.  `t` is the trace id's numeric value (the source
applies `%` to the id's inner value; see the sampling note in the spec).
Rust's `%` panics on a zero denominator, modelled as `none`. -/
def HoneycombTelemetry.should_report (self : HoneycombTelemetry) (t : Nat) : Option Bool :=
  match self.sample_rate with
  | some sample_rate =>
    if sample_rate = 0 then none else some (decide (t % sample_rate = 0))
  | none => some true

/-- A flattened key/value record. -/
abbrev Data := List (String × String)

/-- A completed span as far as the sink observes it: its trace id's
numeric value and the visitor-captured fields. -/
structure Span where
  trace_id : Nat
  fields : Data
deriving DecidableEq

/-- A point-in-time event, same shape. -/
structure Event where
  trace_id : Nat
  fields : Data
deriving DecidableEq

/-- Modelled from the spec: `span_to_values` lives in visitor.rs, which is
not under src/; the spec describes it as a pure function flattening a
completed span plus its envelope into a key/value record.  The claims
settled here depend only on whether it is invoked, so the record content
is carried through abstractly. -/
def span_to_values (sp : Span) : Data :=
  sp.fields

/-- Modelled from the spec: `event_to_values`, as `span_to_values`. -/
def event_to_values (ev : Event) : Data :=
  ev.fields

/-- The libhoney client's observable state: records accepted into its
buffer. -/
structure ClientState where
  sent : List Data
deriving DecidableEq

/-- Observable process state threaded through the sink: client buffer,
stderr lines, and counters for mutex acquisitions and flatten calls. -/
structure ProcState where
  client : ClientState
  stderrLines : List String
  lockCount : Nat
  flattenCount : Nat
deriving DecidableEq

/-- `report_data`: lock the client (counted), build a new event from the
record, send it; on send failure write a diagnostic line to stderr and
drop the record.  Returns in every case. -/
def report_data (sendErr : Option String) (data : Data) (st : ProcState) : ProcState :=
  match sendErr with
  | some err =>
    ⟨st.client, st.stderrLines ++ ["error sending event to honeycomb, " ++ err],
      st.lockCount + 1, st.flattenCount⟩
  | none =>
    ⟨⟨st.client.sent ++ [data]⟩, st.stderrLines, st.lockCount + 1, st.flattenCount⟩

/-- `report_span`: sample on the span's trace id; when sampled in,
flatten (counted) and hand the record to `report_data`; when sampled out,
return with the state untouched.  A sampling panic propagates
(`none`). -/
def HoneycombTelemetry.report_span (self : HoneycombTelemetry) (sendErr : Option String)
    (sp : Span) (st : ProcState) : Option ProcState :=
  match self.should_report sp.trace_id with
  | none => none
  | some true =>
    some (report_data sendErr (span_to_values sp)
      ⟨st.client, st.stderrLines, st.lockCount, st.flattenCount + 1⟩)
  | some false => some st

/-- `report_event`: as `report_span`, on an event. -/
def HoneycombTelemetry.report_event (self : HoneycombTelemetry) (sendErr : Option String)
    (ev : Event) (st : ProcState) : Option ProcState :=
  match self.should_report ev.trace_id with
  | none => none
  | some true =>
    some (report_data sendErr (event_to_values ev)
      ⟨st.client, st.stderrLines, st.lockCount, st.flattenCount + 1⟩)
  | some false => some st

/-- The legacy sink's `report_data` (honeycomb-tracing/src/telemetry.rs):
identical construct-and-submit sequence, no sampling anywhere in that
variant. -/
def legacyReportData (sendErr : Option String) (data : Data) (st : ProcState) : ProcState :=
  report_data sendErr data st

/-! ## Lemmas: hex rendering and the uuid parser loop -/

theorem length_toHexAux (n k : Nat) : (toHexAux n k).length = k := by
  induction k generalizing n with
  | zero => rfl
  | succ k ih => simp [toHexAux, ih]

theorem hexVal_hexChar {d : Nat} (hd : d < 16) : hexVal (hexChar d) = some d := by
  interval_cases d <;> decide

theorem hexVal_dash : hexVal '-' = none := by decide

/-- Big-endian hex value fold, the reference against which the parser loop
is proved. -/
def hexFold : List Char → Nat → Option Nat
  | [], acc => some acc
  | c :: cs, acc =>
    match hexVal c with
    | some d => hexFold cs (acc * 16 + d)
    | none => none

theorem hexFold_append (xs ys : List Char) (acc : Nat) :
    hexFold (xs ++ ys) acc =
      match hexFold xs acc with
      | some v => hexFold ys v
      | none => none := by
  induction xs generalizing acc with
  | nil => rfl
  | cons c cs ih =>
    simp only [List.cons_append, hexFold]
    cases hexVal c with
    | some d => exact ih _
    | none => rfl

theorem hexFold_append_some {xs ys : List Char} {acc v : Nat}
    (h : hexFold (xs ++ ys) acc = some v) :
    ∃ w, hexFold xs acc = some w ∧ hexFold ys w = some v := by
  rw [hexFold_append] at h
  cases hxs : hexFold xs acc with
  | none => rw [hxs] at h; cases h
  | some w => rw [hxs] at h; exact ⟨w, rfl, h⟩

theorem hexFold_toHexAux (k : Nat) : ∀ n acc, n < 16 ^ k →
    hexFold (toHexAux n k) acc = some (acc * 16 ^ k + n) := by
  induction k with
  | zero =>
    intro n acc hn
    have hn0 : n = 0 := by omega
    subst hn0
    simp [toHexAux, hexFold]
  | succ k ih =>
    intro n acc hn
    have h1 : n / 16 < 16 ^ k := by
      rw [Nat.div_lt_iff_lt_mul (by norm_num)]
      calc n < 16 ^ (k + 1) := hn
        _ = 16 ^ k * 16 := by ring
    have hmod : n % 16 < 16 := Nat.mod_lt _ (by norm_num)
    rw [toHexAux, hexFold_append, ih (n / 16) acc h1]
    show hexFold [hexChar (n % 16)] (acc * 16 ^ k + n / 16) = _
    simp only [hexFold, hexVal_hexChar hmod]
    have key : (acc * 16 ^ k + n / 16) * 16 + n % 16 = acc * 16 ^ (k + 1) + n := by
      calc (acc * 16 ^ k + n / 16) * 16 + n % 16
          = acc * (16 ^ k * 16) + (16 * (n / 16) + n % 16) := by ring
        _ = acc * 16 ^ (k + 1) + n := by rw [Nat.div_add_mod, pow_succ]
    rw [key]

theorem uuidParseLoop_hexSeg (ds : List Char) :
    ∀ (cs : List Char) (digit group acc v : Nat),
    hexFold ds acc = some v → digit + ds.length ≤ 32 →
    uuidParseLoop (ds ++ cs) digit group acc = uuidParseLoop cs (digit + ds.length) group v := by
  induction ds with
  | nil =>
    intro cs digit group acc v hfold _
    obtain rfl : acc = v := Option.some.inj hfold
    simp
  | cons c ds ih =>
    intro cs digit group acc v hfold hlen
    simp only [hexFold] at hfold
    cases hc : hexVal c with
    | none => rw [hc] at hfold; cases hfold
    | some d =>
      rw [hc] at hfold
      have hcd : ¬ c = '-' := by
        intro h
        rw [h, hexVal_dash] at hc
        cases hc
      have hlen' : digit + (ds.length + 1) ≤ 32 := by simpa using hlen
      have hd32 : ¬ (32 ≤ digit ∧ group ≠ 4) := by
        intro h
        omega
      rw [List.cons_append]
      simp only [uuidParseLoop]
      rw [if_neg hd32, if_neg hcd, hc]
      show uuidParseLoop (ds ++ cs) (digit + 1) group (acc * 16 + d) = _
      rw [ih cs (digit + 1) group (acc * 16 + d) v hfold (by omega)]
      have : digit + 1 + ds.length = digit + (c :: ds).length := by
        simp
        omega
      rw [this]

theorem uuidParseLoop_dash (cs : List Char) (digit group acc : Nat)
    (h1 : ¬ (32 ≤ digit ∧ group ≠ 4)) (h2 : digit % 2 = 0)
    (h3 : accGroupLen group = digit) :
    uuidParseLoop ('-' :: cs) digit group acc = uuidParseLoop cs digit (group + 1) acc := by
  simp only [uuidParseLoop]
  rw [if_neg h1, if_pos trivial, if_pos ⟨h2, h3⟩]

theorem uuidParseLoop_hexEnd (ds : List Char) (digit group acc v : Nat)
    (h : hexFold ds acc = some v) (hlen : digit + ds.length ≤ 32) :
    uuidParseLoop ds digit group acc = some (digit + ds.length, v) := by
  have h2 := uuidParseLoop_hexSeg ds [] digit group acc v h hlen
  rw [List.append_nil] at h2
  rw [h2]
  rfl

theorem uuidParseChars_render (u : Nat) (hu : u < 2 ^ 128) :
    uuidParseChars (uuidRenderChars u) = some u := by
  have h1616 : (16 : Nat) ^ 32 = 2 ^ 128 := by norm_num
  set ds := toHexAux u 32 with hds_def
  have hlen : ds.length = 32 := length_toHexAux u 32
  have hA : ds.take 8 ++ ds.drop 8 = ds := List.take_append_drop 8 ds
  have hB : (ds.drop 8).take 4 ++ ds.drop 12 = ds.drop 8 := by
    have h := List.take_append_drop 4 (ds.drop 8)
    rw [List.drop_drop] at h
    norm_num at h
    exact h
  have hC : (ds.drop 12).take 4 ++ ds.drop 16 = ds.drop 12 := by
    have h := List.take_append_drop 4 (ds.drop 12)
    rw [List.drop_drop] at h
    norm_num at h
    exact h
  have hD : (ds.drop 16).take 4 ++ ds.drop 20 = ds.drop 16 := by
    have h := List.take_append_drop 4 (ds.drop 16)
    rw [List.drop_drop] at h
    norm_num at h
    exact h
  have lA : (ds.take 8).length = 8 := by rw [List.length_take]; omega
  have lB : ((ds.drop 8).take 4).length = 4 := by
    rw [List.length_take, List.length_drop]; omega
  have lC : ((ds.drop 12).take 4).length = 4 := by
    rw [List.length_take, List.length_drop]; omega
  have lD : ((ds.drop 16).take 4).length = 4 := by
    rw [List.length_take, List.length_drop]; omega
  have lE : (ds.drop 20).length = 12 := by rw [List.length_drop]; omega
  have hfold : hexFold ds 0 = some u := by
    have h := hexFold_toHexAux 32 u 0 (by rw [h1616]; exact hu)
    simpa using h
  have hsplit : ds = ds.take 8 ++ ((ds.drop 8).take 4 ++ ((ds.drop 12).take 4 ++
      ((ds.drop 16).take 4 ++ ds.drop 20))) := by
    rw [hD, hC, hB, hA]
  rw [hsplit] at hfold
  obtain ⟨vA, hfA, h2⟩ := hexFold_append_some hfold
  obtain ⟨vB, hfB, h3⟩ := hexFold_append_some h2
  obtain ⟨vC, hfC, h4⟩ := hexFold_append_some h3
  obtain ⟨vD, hfD, h5⟩ := hexFold_append_some h4
  have hrender : uuidRenderChars u = ds.take 8 ++ ('-' :: ((ds.drop 8).take 4 ++
      ('-' :: ((ds.drop 12).take 4 ++ ('-' :: ((ds.drop 16).take 4 ++
      ('-' :: ds.drop 20))))))) := rfl
  have hrlen : (uuidRenderChars u).length = 36 := by
    rw [hrender]
    simp only [List.length_append, List.length_cons, lA, lB, lC, lD, lE]
  rw [uuidParseChars]
  rw [if_neg (by rw [hrlen]; omega : ¬ ((uuidRenderChars u).length = 45 ∧
    (uuidRenderChars u).take 9 = urnHeader))]
  rw [if_pos (Or.inl hrlen)]
  rw [hrender]
  rw [uuidParseLoop_hexSeg (ds.take 8) _ 0 0 0 vA hfA (by rw [lA]; omega), lA]
  rw [uuidParseLoop_dash _ (0 + 8) 0 vA (by omega) (by omega) (by norm_num [accGroupLen])]
  rw [uuidParseLoop_hexSeg ((ds.drop 8).take 4) _ (0 + 8) 1 vA vB hfB (by rw [lB]; omega), lB]
  rw [uuidParseLoop_dash _ (0 + 8 + 4) 1 vB (by omega) (by omega) (by norm_num [accGroupLen])]
  rw [uuidParseLoop_hexSeg ((ds.drop 12).take 4) _ (0 + 8 + 4) 2 vB vC hfC (by rw [lC]; omega), lC]
  rw [uuidParseLoop_dash _ (0 + 8 + 4 + 4) 2 vC (by omega) (by omega) (by norm_num [accGroupLen])]
  rw [uuidParseLoop_hexSeg ((ds.drop 16).take 4) _ (0 + 8 + 4 + 4) 3 vC vD hfD
    (by rw [lD]; omega), lD]
  rw [uuidParseLoop_dash _ (0 + 8 + 4 + 4 + 4) 3 vD (by omega) (by omega)
    (by norm_num [accGroupLen])]
  rw [uuidParseLoop_hexEnd (ds.drop 20) (0 + 8 + 4 + 4 + 4) 4 vD u h5 (by rw [lE]), lE]
  norm_num [uuidFinish]

theorem uuidParse_render (u : Nat) (hu : u < 2 ^ 128) :
    uuidParse (uuidRender u) = some u := by
  show uuidParseChars (String.mk (uuidRenderChars u)).data = some u
  exact uuidParseChars_render u hu

/-! ## Lemmas: decimal rendering and the u64 parser -/

theorem decVal_decChar {d : Nat} (hd : d < 10) : decVal (decChar d) = some d := by
  interval_cases d <;> decide

theorem decChar_ne_dash {d : Nat} (hd : d < 10) : decChar d ≠ '-' := by
  interval_cases d <;> decide

theorem decChar_ne_plus {d : Nat} (hd : d < 10) : decChar d ≠ '+' := by
  interval_cases d <;> decide

theorem mem_natToDec {c : Char} {n : Nat} (h : c ∈ natToDec n) :
    ∃ d, d < 10 ∧ c = decChar d := by
  unfold natToDec at h
  split at h
  · refine ⟨0, by norm_num, ?_⟩
    simp only [List.mem_singleton] at h
    rw [h]
    decide
  · rw [List.mem_map] at h
    obtain ⟨d, hd, rfl⟩ := h
    refine ⟨d, ?_, rfl⟩
    exact Nat.digits_lt_base (by norm_num) (List.mem_reverse.mp hd)

theorem natToDec_no_dash (n : Nat) : '-' ∉ natToDec n := by
  intro h
  obtain ⟨d, hd, hc⟩ := mem_natToDec h
  exact decChar_ne_dash hd hc.symm

theorem natToDec_ne_nil (n : Nat) : natToDec n ≠ [] := by
  unfold natToDec
  split
  · simp
  · simp only [ne_eq, List.map_eq_nil_iff, List.reverse_eq_nil_iff]
    rw [Nat.digits_eq_nil_iff_eq_zero]
    assumption

/-- Value of a big-endian digit list. -/
def valBE (L : List Nat) : Nat := Nat.ofDigits 10 L.reverse

theorem valBE_cons (d : Nat) (L : List Nat) :
    valBE (d :: L) = d * 10 ^ L.length + valBE L := by
  unfold valBE
  rw [List.reverse_cons, Nat.ofDigits_append]
  simp [Nat.ofDigits_singleton, List.length_reverse]
  ring

theorem parseU64Loop_digits (L : List Nat) : ∀ acc, (∀ d ∈ L, d < 10) →
    acc * 10 ^ L.length + valBE L ≤ u64Max →
    parseU64Loop (L.map decChar) acc = .ok (acc * 10 ^ L.length + valBE L) := by
  induction L with
  | nil =>
    intro acc _ _
    simp [parseU64Loop, valBE, Nat.ofDigits]
  | cons d L ih =>
    intro acc hdig hle
    have hd : d < 10 := hdig d (List.mem_cons_self _ _)
    have key : (acc * 10 + d) * 10 ^ L.length + valBE L =
        acc * 10 ^ (d :: L).length + valBE (d :: L) := by
      rw [valBE_cons, List.length_cons, pow_succ]
      ring
    have hle' : (acc * 10 + d) * 10 ^ L.length + valBE L ≤ u64Max := by
      rw [key]
      exact hle
    have hbound : ¬ u64Max < acc * 10 + d := by
      have h1 : acc * 10 + d ≤ (acc * 10 + d) * 10 ^ L.length := by
        have : (0 : Nat) < 10 ^ L.length := by positivity
        nlinarith
      omega
    simp only [List.map_cons, parseU64Loop, decVal_decChar hd]
    rw [if_neg hbound]
    rw [ih (acc * 10 + d) (fun x hx => hdig x (List.mem_cons_of_mem _ hx)) hle']
    rw [key]

theorem parseU64Loop_natToDec {n : Nat} (hn : n ≤ u64Max) :
    parseU64Loop (natToDec n) 0 = .ok n := by
  unfold natToDec
  split
  · subst n
    rfl
  · have hdig : ∀ d ∈ (Nat.digits 10 n).reverse, d < 10 := by
      intro d hd
      exact Nat.digits_lt_base (by norm_num) (List.mem_reverse.mp hd)
    have hval : valBE ((Nat.digits 10 n).reverse) = n := by
      unfold valBE
      rw [List.reverse_reverse, Nat.ofDigits_digits]
    have h := parseU64Loop_digits ((Nat.digits 10 n).reverse) 0 hdig
      (by rw [hval]; simpa using hn)
    rw [hval] at h
    simpa using h

theorem u64FromStrRadix10_cons (c : Char) (rest : List Char) (hc : ¬ c = '+') :
    u64FromStrRadix10 (c :: rest) = parseU64Loop (c :: rest) 0 := by
  cases rest with
  | nil => simp [u64FromStrRadix10, hc]
  | cons d tail => simp [u64FromStrRadix10, hc]

theorem u64FromStrRadix10_natToDec {n : Nat} (hn : n ≤ u64Max) :
    u64FromStrRadix10 (natToDec n) = .ok n := by
  obtain ⟨c, rest, hcr⟩ : ∃ c rest, natToDec n = c :: rest := by
    cases h : natToDec n with
    | nil => exact absurd h (natToDec_ne_nil n)
    | cons c rest => exact ⟨c, rest, rfl⟩
  have hplus : ¬ c = '+' := by
    have hc : c ∈ natToDec n := by rw [hcr]; exact List.mem_cons_self _ _
    obtain ⟨d, hd, rfl⟩ := mem_natToDec hc
    exact decChar_ne_plus hd
  rw [hcr, u64FromStrRadix10_cons c rest hplus, ← hcr]
  exact parseU64Loop_natToDec hn

/-! ## Lemmas: splitting on the dash -/

theorem splitOnDash_no_dash {xs : List Char} (h : '-' ∉ xs) : splitOnDash xs = [xs] := by
  induction xs with
  | nil => rfl
  | cons c cs ih =>
    simp only [List.mem_cons, not_or] at h
    obtain ⟨h1, h2⟩ := h
    unfold splitOnDash
    rw [if_neg (fun hh => h1 hh.symm), ih h2]

theorem splitOnDash_append {xs : List Char} (ys : List Char) (h : '-' ∉ xs) :
    splitOnDash (xs ++ '-' :: ys) = xs :: splitOnDash ys := by
  induction xs with
  | nil =>
    show splitOnDash ('-' :: ys) = [] :: splitOnDash ys
    conv_lhs => rw [splitOnDash]
    rw [if_pos rfl]
  | cons c cs ih =>
    simp only [List.mem_cons, not_or] at h
    obtain ⟨h1, h2⟩ := h
    rw [List.cons_append]
    conv_lhs => rw [splitOnDash]
    rw [if_neg (fun hh => h1 hh.symm)]
    rw [ih h2]

/-- `(String.mk l).data = l`, the bridge between string literals and the
char-list model. -/
theorem string_data_mk (l : List Char) : (String.mk l).data = l := rfl

/-! ## Claims -/

/-- C1 (amended): the TraceId text round-trip `from_str (to_string x) = Ok x`
holds for every well-formed TraceId whose string variant (if that is the
variant) does not itself parse as uuid text: all uuid-backed ids (which
covers generated ids and u128 conversions) and all opaque strings not in a
uuid text form.  (The original claim, quantified over arbitrary opaque
strings, fails: see the counterexample.) -/
theorem traceId_round_trip (x : TraceId) (hwf : x.WF)
    (hop : ∀ s, x = TraceId.str s → uuidParse s = none) :
    TraceId.from_str x.toText = Except.ok x := by
  cases x with
  | uuid u =>
    have h : uuidParse (uuidRender u) = some u := uuidParse_render u hwf
    unfold TraceId.toText TraceId.from_str
    rw [h]
  | str s =>
    have h : uuidParse s = none := hop s rfl
    unfold TraceId.toText TraceId.from_str
    rw [h]

/-- C1 witness: the round-trip at the concrete uuid-backed id 0. -/
theorem traceId_round_trip_witness :
    TraceId.from_str (TraceId.toText (TraceId.uuid 0)) = Except.ok (TraceId.uuid 0) :=
  traceId_round_trip (TraceId.uuid 0) (by norm_num [TraceId.WF])
    (fun _ h => TraceId.noConfusion h)

/-- C1 counterexample: a string-variant TraceId carrying canonical uuid
text does not round-trip — parsing its rendering yields the uuid variant,
which is not equal to the string variant. -/
theorem traceId_round_trip_counterexample :
    TraceId.from_str (TraceId.toText
        (TraceId.str "00000000-0000-0000-0000-000000000000")) ≠
      Except.ok (TraceId.str "00000000-0000-0000-0000-000000000000") := by
  intro h
  have e : TraceId.from_str (TraceId.toText
      (TraceId.str "00000000-0000-0000-0000-000000000000")) =
      Except.ok (TraceId.uuid 0) := rfl
  rw [e] at h
  exact TraceId.noConfusion (Except.ok.inj h)

/-- C6: `TraceId::from_str` never fails — every input string yields an
`Ok` TraceId, the uuid interpretation when the input parses as uuid text
and the whole input as an opaque string otherwise. -/
theorem traceId_from_str_total (s : String) :
    (∃ t, TraceId.from_str s = Except.ok t) ∧
    (∀ u, uuidParse s = some u → TraceId.from_str s = Except.ok (TraceId.uuid u)) ∧
    (uuidParse s = none → TraceId.from_str s = Except.ok (TraceId.str s)) := by
  refine ⟨?_, ?_, ?_⟩
  · cases h : uuidParse s with
    | some u => exact ⟨TraceId.uuid u, by unfold TraceId.from_str; rw [h]⟩
    | none => exact ⟨TraceId.str s, by unfold TraceId.from_str; rw [h]⟩
  · intro u hu
    unfold TraceId.from_str
    rw [hu]
  · intro hn
    unfold TraceId.from_str
    rw [hn]

/-- C6 witness: the empty string parses successfully, to the opaque
variant. -/
theorem traceId_from_str_total_witness :
    TraceId.from_str "" = Except.ok (TraceId.str "") :=
  (traceId_from_str_total "").2.2 rfl

/-- C7: the SpanId round-trip: for any pair of u64 components with both
at least 1, parsing the rendered `"local-instance"` text returns the same
SpanId. -/
theorem spanId_round_trip (a b : Nat) (ha1 : 1 ≤ a) (ha2 : a ≤ u64Max)
    (_hb1 : 1 ≤ b) (hb2 : b ≤ u64Max) :
    SpanId.from_str (SpanId.toText ⟨a, b⟩) = RResult.ok ⟨a, b⟩ := by
  have ha0 : ¬ a = 0 := by omega
  simp only [SpanId.toText, SpanId.from_str, string_data_mk,
    splitOnDash_append (natToDec b) (natToDec_no_dash a),
    splitOnDash_no_dash (natToDec_no_dash b),
    u64FromStrRadix10_natToDec ha2, u64FromStrRadix10_natToDec hb2,
    tracingIdFromU64, ha0, if_false]

/-- C7 witness: the round-trip at the concrete pair (1, 1). -/
theorem spanId_round_trip_witness :
    SpanId.from_str (SpanId.toText ⟨1, 1⟩) = RResult.ok ⟨1, 1⟩ :=
  spanId_round_trip 1 1 (by norm_num) (by norm_num [u64Max]) (by norm_num)
    (by norm_num [u64Max])

/-- C10 (amended): with more than two `'-'`-separated fields, and the
first two fields rendering u64 values `a` (≥ 1, since a local id of 0
makes the tracing-id construction panic) and `b`, parsing succeeds with
`SpanId(a, b)` and silently ignores the trailing fields, so rendering the
parsed value does not reproduce the input. -/
theorem spanId_extra_fields (a b : Nat) (rest : List Char)
    (ha1 : 1 ≤ a) (ha2 : a ≤ u64Max) (hb2 : b ≤ u64Max) :
    SpanId.from_str (String.mk (natToDec a ++ ('-' :: (natToDec b ++ ('-' :: rest)))))
      = RResult.ok ⟨a, b⟩ ∧
    SpanId.toText ⟨a, b⟩ ≠ String.mk (natToDec a ++ ('-' :: (natToDec b ++ ('-' :: rest)))) := by
  have ha0 : ¬ a = 0 := by omega
  constructor
  · simp only [SpanId.from_str, string_data_mk,
      splitOnDash_append (natToDec b ++ ('-' :: rest)) (natToDec_no_dash a),
      splitOnDash_append rest (natToDec_no_dash b),
      u64FromStrRadix10_natToDec ha2, u64FromStrRadix10_natToDec hb2,
      tracingIdFromU64, ha0, if_false]
  · intro h
    have hdata := congrArg String.data h
    simp only [SpanId.toText, string_data_mk] at hdata
    have hlen := congrArg List.length hdata
    simp only [List.length_append, List.length_cons] at hlen
    omega

/-- C10 counterexample: `"0-0-x"` has two valid base-10 u64 fields (0 and
0), yet parsing does not succeed with `SpanId(0, 0)` — the tracing-id
construction panics on the 0 local id. -/
theorem spanId_extra_fields_counterexample :
    SpanId.from_str "0-0-x" = RResult.panicked ∧
    (RResult.panicked : RResult ParseSpanIdError SpanId) ≠ RResult.ok (SpanId.mk 0 0) := by
  exact ⟨rfl, by decide⟩

/-- C5 (amended): on `"0-1"` both fields parse as u64 values (0 and 1),
but constructing the `tracing::Id` from the local id 0 panics, so
`SpanId::from_str` aborts instead of returning at the parse level. -/
theorem spanId_zero_local_amended :
    u64FromStrRadix10 ['0'] = Except.ok 0 ∧
    u64FromStrRadix10 ['1'] = Except.ok 1 ∧
    tracingIdFromU64 0 = none ∧
    SpanId.from_str "0-1" = RResult.panicked :=
  ⟨rfl, rfl, rfl, rfl⟩

/-- C5 counterexample: `SpanId::from_str("0-1")` does not return `Ok` —
it panics. -/
theorem spanId_zero_local_counterexample :
    SpanId.from_str "0-1" ≠ RResult.ok ⟨0, 1⟩ := by
  decide

/-- C4 (amended): `"abc"` fails with the `ParseIntError` variant (the
single field is parsed before the missing-separator check, and is not
numeric); a separator-free input whose field is numeric, such as `"123"`,
fails with `FormatError`; `"1-"` and `"-1"` fail with the `ParseIntError`
variant (empty field). -/
theorem spanId_malformed_errors :
    SpanId.from_str "abc" =
        RResult.err (ParseSpanIdError.ParseIntError IntErrorKind.InvalidDigit) ∧
    SpanId.from_str "123" = RResult.err ParseSpanIdError.FormatError ∧
    SpanId.from_str "1-" = RResult.err (ParseSpanIdError.ParseIntError IntErrorKind.Empty) ∧
    SpanId.from_str "-1" = RResult.err (ParseSpanIdError.ParseIntError IntErrorKind.Empty) :=
  ⟨rfl, rfl, rfl, rfl⟩

/-- C4 counterexample: `"abc"` does not fail with `FormatError` (it fails
with the numeric-parse variant). -/
theorem spanId_malformed_counterexample :
    SpanId.from_str "abc" ≠ RResult.err ParseSpanIdError.FormatError := by
  decide

/-- C2: sampling semantics of `should_report` on a constructed sink: with
no denominator it returns true; with denominator `d ≠ 0` it returns true
iff `t mod d = 0` (hence with `d = 1` always true).  Determinism over
repeated calls is definitional: the embedded predicate is a pure function
of the configuration and `t`. -/
theorem should_report_correct (cfg : Config) (sr : Option Nat) (t : Nat) :
    (sr = none → (HoneycombTelemetry.new cfg sr).should_report t = some true) ∧
    (∀ d, sr = some d → d ≠ 0 →
      ((HoneycombTelemetry.new cfg sr).should_report t = some true ↔ t % d = 0)) ∧
    (sr = some 1 → (HoneycombTelemetry.new cfg sr).should_report t = some true) := by
  refine ⟨?_, ?_, ?_⟩
  · intro h
    subst h
    rfl
  · intro d h hd
    subst h
    show (if d = 0 then none else some (decide (t % d = 0))) = some true ↔ t % d = 0
    rw [if_neg hd]
    simp
  · intro h
    subst h
    show (if (1 : Nat) = 0 then none else some (decide (t % 1 = 0))) = some true
    rw [if_neg (by norm_num : ¬ (1 : Nat) = 0)]
    simp [Nat.mod_one]

/-- C2 witness: denominator 2 at trace value 6 reports. -/
theorem should_report_correct_witness :
    (HoneycombTelemetry.new ⟨⟩ (some 2)).should_report 6 = some true :=
  ((should_report_correct ⟨⟩ (some 2) 6).2.1 2 rfl (by norm_num)).mpr (by norm_num)

/-- C3 (amended): `HoneycombTelemetry::new` performs no validation of the
sample rate: `Some(0)` is accepted and stored, and the constructed sink
then evaluates the modulo with the zero denominator at report time, where
it panics. -/
theorem new_unchecked_zero_rate (cfg : Config) (t : Nat) :
    (HoneycombTelemetry.new cfg (some 0)).sample_rate = some 0 ∧
    (HoneycombTelemetry.new cfg (some 0)).should_report t = none :=
  ⟨rfl, rfl⟩

/-- C3 counterexample: constructing a sink with `Some(0)` succeeds (the
zero denominator is stored, not rejected), and that sink's report-time
sampling check hits the zero-denominator modulo (a panic). -/
theorem new_zero_rate_counterexample :
    (HoneycombTelemetry.new ⟨⟩ (some 0)).sample_rate = some 0 ∧
    (HoneycombTelemetry.new ⟨⟩ (some 0)).should_report 1 = none :=
  ⟨rfl, rfl⟩

/-- C8: a sampled-out span or event is dropped with no observable effect:
the state — client buffer, stderr, lock-acquisition count, and flatten
count — is returned untouched. -/
theorem report_sampled_out_no_effect (self : HoneycombTelemetry) (sendErr : Option String)
    (sp : Span) (ev : Event) (st : ProcState)
    (hsp : self.should_report sp.trace_id = some false)
    (hev : self.should_report ev.trace_id = some false) :
    self.report_span sendErr sp st = some st ∧
    self.report_event sendErr ev st = some st := by
  unfold HoneycombTelemetry.report_span HoneycombTelemetry.report_event
  rw [hsp, hev]
  exact ⟨rfl, rfl⟩

/-- C8 witness: denominator 2, trace value 3: sampled out, state
unchanged. -/
theorem report_sampled_out_no_effect_witness :
    (HoneycombTelemetry.new ⟨⟩ (some 2)).report_span none ⟨3, []⟩ ⟨⟨[]⟩, [], 0, 0⟩ =
      some ⟨⟨[]⟩, [], 0, 0⟩ :=
  (report_sampled_out_no_effect (HoneycombTelemetry.new ⟨⟩ (some 2)) none ⟨3, []⟩ ⟨3, []⟩
    ⟨⟨[]⟩, [], 0, 0⟩ rfl rfl).1

/-- C9: when the client's send fails, `report_span`/`report_event` (and
the legacy variant's `report_data`) still return normally: one diagnostic
line is appended to stderr, the record is dropped (the client buffer is
unchanged — no retry), and the mutex was acquired exactly once. -/
theorem report_submit_failure_nonfatal (self : HoneycombTelemetry) (err : String)
    (sp : Span) (ev : Event) (st : ProcState)
    (hsp : self.should_report sp.trace_id = some true)
    (hev : self.should_report ev.trace_id = some true) :
    self.report_span (some err) sp st =
      some ⟨st.client, st.stderrLines ++ ["error sending event to honeycomb, " ++ err],
        st.lockCount + 1, st.flattenCount + 1⟩ ∧
    self.report_event (some err) ev st =
      some ⟨st.client, st.stderrLines ++ ["error sending event to honeycomb, " ++ err],
        st.lockCount + 1, st.flattenCount + 1⟩ ∧
    legacyReportData (some err) (span_to_values sp) st =
      ⟨st.client, st.stderrLines ++ ["error sending event to honeycomb, " ++ err],
        st.lockCount + 1, st.flattenCount⟩ := by
  unfold HoneycombTelemetry.report_span HoneycombTelemetry.report_event legacyReportData
    report_data
  rw [hsp, hev]
  exact ⟨rfl, rfl, rfl⟩

/-- C9 witness: a failing send on a sampled-in span: the call returns,
stderr gains the diagnostic, nothing reaches the client buffer. -/
theorem report_submit_failure_nonfatal_witness :
    (HoneycombTelemetry.new ⟨⟩ none).report_span (some "buffer full") ⟨7, []⟩
        ⟨⟨[]⟩, [], 0, 0⟩ =
      some ⟨⟨[]⟩, ["error sending event to honeycomb, buffer full"], 1, 1⟩ := by
  have h := (report_submit_failure_nonfatal (HoneycombTelemetry.new ⟨⟩ none) "buffer full"
    ⟨7, []⟩ ⟨7, []⟩ ⟨⟨[]⟩, [], 0, 0⟩ rfl rfl).1
  exact h

/-- C10 witness: `"1-2-x"` parses to `SpanId(1, 2)`. -/
theorem spanId_extra_fields_witness :
    SpanId.from_str (String.mk (natToDec 1 ++ ('-' :: (natToDec 2 ++ ('-' :: ['x'])))))
      = RResult.ok ⟨1, 2⟩ :=
  (spanId_extra_fields 1 2 ['x'] (by norm_num) (by norm_num [u64Max])
    (by norm_num [u64Max])).1
